import Mathlib

/-!
Shallow embedding of the `chomp` nutrition logger (Rust) and proofs about
its input-interpretation / unit-normalization engine and its database edit
operations.

Source files embedded: `src/food.rs` (quantity parser, unit normalizer,
macro scaler), `src/logging.rs` (command tokenizer and log interpreter),
`src/db.rs` (`edit_food`, `edit_log_entry`).

Modelling conventions:
* Rust `f64` is modelled by `F64`: an exact rational together with the two
  non-finite points `inf` and `nan` that the program can actually reach
  (division by zero in the scaler, numeric-literal overflow in `parse`).
  Finite arithmetic is kept exact (no rounding); every arithmetic step the
  claims below depend on (`100/100`, `200/100`, `x*1`, `x*2`, the fixed
  table factors) is exact in IEEE double as well.  Only non-negative values
  arise on the paths modelled here (the numeric grammar reachable from
  `parse_quantity` has no sign), so `F64` carries no negative infinity.
* Rust `str::parse::<f64>()` is modelled in two roles: `rustF64ParseOk`
  decides acceptance by the full grammar (sign, mantissa, exponent,
  inf/nan keywords) and is used where the code only asks `.is_ok()`;
  `parseDecimalF64` gives the value for strings made of ASCII digits and
  dots, which is the only alphabet that reaches a value-producing parse in
  `parse_quantity`.  A decimal numeral whose value reaches the IEEE
  double overflow threshold `2^1024 - 2^970` parses to `inf`, as Rust's
  `f64::from_str` does; smaller values are kept exact instead of rounded.
* Rust `char::is_numeric` is modelled as ASCII `'0'..'9'`, and
  `str::to_lowercase` as ASCII lowering.  Non-ASCII digits would be
  rejected by the later `f64` parse anyway, so the `Option`-level results
  agree on all ASCII inputs, which is the alphabet of every claim.
* The sqlite-backed `Database` is modelled as explicit data: the abstract
  lookup/sink interface for `parse_and_log` (whose claims quantify over
  arbitrary collaborators), and explicit row lists for `edit_food` /
  `edit_log_entry`.
-/

set_option maxRecDepth 100000

/-- Extended IEEE-double value: exact finite rational, `inf`, or `nan`.
Only the non-negative reachable points are represented (see header). -/
inductive F64 where
  | fin : ℚ → F64
  | inf : F64
  | nan : F64
deriving DecidableEq, Repr

namespace F64

/-- IEEE multiplication on the modelled points (non-negative domain). -/
def mul : F64 → F64 → F64
  | nan, _ => nan
  | _, nan => nan
  | fin a, fin b => fin (a * b)
  | inf, fin b => if b = 0 then nan else inf
  | fin a, inf => if a = 0 then nan else inf
  | inf, inf => inf

/-- IEEE addition on the modelled points (non-negative domain). -/
def add : F64 → F64 → F64
  | nan, _ => nan
  | _, nan => nan
  | fin a, fin b => fin (a + b)
  | inf, _ => inf
  | _, inf => inf

/-- IEEE division on the modelled points (non-negative domain):
division by zero yields `inf` (or `nan` for `0/0`), never a fault. -/
def div : F64 → F64 → F64
  | nan, _ => nan
  | _, nan => nan
  | fin a, fin b => if b = 0 then (if a = 0 then nan else inf) else fin (a / b)
  | inf, fin _ => inf
  | fin _, inf => fin 0
  | inf, inf => nan

end F64

/-! ### Character / string helpers (ASCII models of the Rust std calls) -/

/-- ASCII model of `char::is_numeric` (see header note). -/
def isAsciiDigit (c : Char) : Bool := '0' ≤ c && c ≤ '9'

/-- ASCII model of char lowering. -/
def asciiLower (c : Char) : Char :=
  if 'A' ≤ c && c ≤ 'Z' then Char.ofNat (c.toNat + 32) else c

/-- ASCII model of `str::to_lowercase`. -/
def lowerStr (s : String) : String := String.mk (s.toList.map asciiLower)

/-- Whitespace recognizer for `trim` / `split_whitespace`. -/
def isWs (c : Char) : Bool := c = ' ' || c = '\t' || c = '\n' || c = '\r'

/-- Model of `str::trim` on char lists. -/
def trimList (l : List Char) : List Char :=
  ((l.dropWhile isWs).reverse.dropWhile isWs).reverse

/-- Model of `str::trim`. -/
def trimStr (s : String) : String := String.mk (trimList s.toList)

/-- Split on runs of whitespace (`str::split_whitespace`); accumulator holds
the current word reversed. -/
def splitWsCore : List Char → List Char → List (List Char)
  | [], acc => if acc.isEmpty then [] else [acc.reverse]
  | c :: rest, acc =>
    if isWs c then
      if acc.isEmpty then splitWsCore rest []
      else acc.reverse :: splitWsCore rest []
    else splitWsCore rest (c :: acc)

/-- The whitespace-separated words of a string. -/
def wordsOf (s : String) : List String :=
  (splitWsCore s.toList []).map String.mk

/-! ### The Rust `f64` string grammar -/

/-- Strip one leading sign character. -/
def dropSign : List Char → List Char
  | '+' :: r => r
  | '-' :: r => r
  | l => l

/-- Split a char list at every occurrence of `c`. -/
def splitOnChar (c : Char) : List Char → List (List Char)
  | [] => [[]]
  | x :: xs =>
    if x = c then [] :: splitOnChar c xs
    else
      match splitOnChar c xs with
      | [] => [[x]]
      | h :: t => (x :: h) :: t

/-- Valid `f64` significand over digits and dots: at least one digit,
at most one dot, nothing else. -/
def sigOk (l : List Char) : Bool :=
  l.all (fun c => isAsciiDigit c || c = '.') && l.any isAsciiDigit
    && l.count '.' ≤ 1

/-- Valid `f64` exponent part (after the `e`). -/
def expOk (l : List Char) : Bool :=
  let t := dropSign l
  !t.isEmpty && t.all isAsciiDigit

/-- Acceptance by Rust's `f64::from_str` grammar: optional sign, then
`inf`/`infinity`/`nan` (case-insensitive) or significand with optional
exponent.  Used where the code only asks whether `.parse::<f64>()` is
`Ok`. -/
def rustF64ParseOk (l : List Char) : Bool :=
  let t := dropSign (l.map asciiLower)
  if t = "inf".toList || t = "infinity".toList || t = "nan".toList then true
  else
    match splitOnChar 'e' t with
    | [s] => sigOk s
    | [s, e] => sigOk s && expOk e
    | _ => false

/-- Numeric value of a digit string. -/
def natOfDigits (l : List Char) : ℕ :=
  l.foldl (fun n c => 10 * n + (c.toNat - 48)) 0

/-- Exact decimal value at or beyond which Rust's `f64` parse rounds a
non-negative numeral to `+inf` (`2^1024 - 2^970`, the midpoint above the
largest finite double). -/
def ovfThreshold : ℚ := ((2 ^ 1024 - 2 ^ 970 : ℕ) : ℚ)

/-- Package a non-negative exact decimal value as the `f64` the Rust parse
produces: `inf` at or beyond the overflow threshold, else the exact value. -/
def mkF64val (q : ℚ) : F64 := if ovfThreshold ≤ q then F64.inf else F64.fin q

/-- Value of Rust `str::parse::<f64>()` on strings over the digit/dot
alphabet (the only alphabet reaching a value-producing parse inside
`parse_quantity`).  Anything else is rejected. -/
def parseDecimalF64 (l : List Char) : Option F64 :=
  if l.all (fun c => isAsciiDigit c || c = '.') then
    match splitOnChar '.' l with
    | [ip] => if ip.isEmpty then none else some (mkF64val (natOfDigits ip))
    | [ip, fp] =>
      if ip.isEmpty && fp.isEmpty then none
      else some (mkF64val
        ((natOfDigits ip * 10 ^ fp.length + natOfDigits fp : ℕ) /
          ((10 ^ fp.length : ℕ) : ℚ)))
    | _ => none
  else none

/-! ### `src/food.rs`: quantity parser, unit normalizer, macro scaler -/

/-- `food.rs::parse_quantity`: trim and lowercase, split at the first char
that is neither numeric nor a dot; the prefix must parse as a float, the
trimmed remainder is the unit.  A pure numeral gets unit `"g"`. -/
def parse_quantity (s : String) : Option (F64 × String) :=
  let l := (lowerStr (trimStr s)).toList
  match l.findIdx? (fun c => !isAsciiDigit c && c ≠ '.') with
  | some i =>
    (parseDecimalF64 (l.take i)).map
      (fun v => (v, String.mk (trimList (l.drop i))))
  | none => (parseDecimalF64 l).map (fun v => (v, "g"))

/-- `food.rs::to_grams`: fixed conversion table, unknown units fall back to
a 1:1 gram assumption, never fails. -/
def to_grams (value : F64) (unit : String) : Option F64 :=
  let u := lowerStr unit
  if u = "g" || u = "gram" || u = "grams" then some value
  else if u = "oz" || u = "ounce" || u = "ounces" then
    some (value.mul (F64.fin (283495 / 10000)))
  else if u = "lb" || u = "lbs" || u = "pound" || u = "pounds" then
    some (value.mul (F64.fin (453592 / 1000)))
  else if u = "kg" || u = "kilogram" || u = "kilograms" then
    some (value.mul (F64.fin 1000))
  else if u = "ml" || u = "milliliter" || u = "milliliters" then some value
  else if u = "cup" || u = "cups" then some (value.mul (F64.fin 240))
  else if u = "tbsp" || u = "tablespoon" || u = "tablespoons" then
    some (value.mul (F64.fin 15))
  else if u = "tsp" || u = "teaspoon" || u = "teaspoons" then
    some (value.mul (F64.fin 5))
  else if u = "bar" || u = "bars" || u = "piece" || u = "pieces"
      || u = "serving" || u = "servings" || u = "scoop" || u = "scoops" then
    some (value.mul (F64.fin 100))
  else some value

/-- `food.rs::parse_amount_multiplier`: parse both strings, normalize both
to grams, divide.  Note: the division is unguarded, exactly as in the
source. -/
def parse_amount_multiplier (amount serving : String) : Option F64 := do
  let (amount_val, amount_unit) ← parse_quantity amount
  let (serving_val, serving_unit) ← parse_quantity serving
  let amount_grams ← to_grams amount_val amount_unit
  let serving_grams ← to_grams serving_val serving_unit
  some (amount_grams.div serving_grams)

/-- `food.rs::Macros`. -/
structure Macros where
  protein : F64
  fat : F64
  carbs : F64
  calories : F64
deriving DecidableEq, Repr

/-- `food.rs::Food` (also the shape returned by `db::get_food_by_name`). -/
structure Food where
  id : Option Int
  name : String
  protein : F64
  fat : F64
  carbs : F64
  calories : F64
  serving : String
  aliases : List String
  default_amount : Option String
deriving DecidableEq, Repr

/-- `food.rs::Food::calculate`: scale the per-serving macros by the
multiplier for `amount` relative to `serving`. -/
def Food.calculate (f : Food) (amount : String) : Option Macros :=
  (parse_amount_multiplier amount f.serving).map fun multiplier =>
    { protein := f.protein.mul multiplier
      fat := f.fat.mul multiplier
      carbs := f.carbs.mul multiplier
      calories := f.calories.mul multiplier }

/-! ### `src/logging.rs`: command tokenizer -/

/-- `logging.rs::is_number`: `s.parse::<f64>().is_ok()`. -/
def is_number (s : String) : Bool := rustF64ParseOk s.toList

/-- The tokenizer's full unit vocabulary (`logging.rs::is_unit`). -/
def unitWords : List String :=
  ["g", "gram", "grams",
   "oz", "ounce", "ounces",
   "lb", "lbs", "pound", "pounds",
   "kg", "kilogram", "kilograms",
   "ml", "milliliter", "milliliters",
   "l", "liter", "liters",
   "cup", "cups",
   "tbsp", "tablespoon", "tablespoons",
   "tsp", "teaspoon", "teaspoons",
   "bar", "bars",
   "piece", "pieces",
   "serving", "servings",
   "scoop", "scoops",
   "slice", "slices"]

/-- `logging.rs::is_unit`. -/
def is_unit (s : String) : Bool := unitWords.contains (lowerStr s)

/-- `stripSuffix l suf` returns the prefix of `l` before suffix `suf`,
when `suf` is indeed a suffix (the byte-slice `&s[..s.len()-unit.len()]`
of the source). -/
def stripSuffix (l suf : List Char) : Option (List Char) :=
  if suf.length ≤ l.length && l.drop (l.length - suf.length) = suf then
    some (l.take (l.length - suf.length))
  else none

/-- The suffix units recognized by `logging.rs::is_amount` — note this is
only a six-element subset of `unitWords`. -/
def amountSuffixes : List String := ["g", "oz", "ml", "lb", "kg", "l"]

/-- `logging.rs::is_amount`: lowercase, then accept when some recognized
suffix unit is preceded by a parsable number. -/
def is_amount (s : String) : Bool :=
  let t := (lowerStr s).toList
  amountSuffixes.any fun u =>
    match stripSuffix t u.toList with
    | some pre => rustF64ParseOk pre
    | none => false

/-- `logging.rs::parse_input`: the ordered tokenization heuristics.
The match is on the reversed word list so the last and second-to-last
words are at hand, exactly mirroring `words[len-1]` / `words[len-2]`. -/
def parse_input (input : String) : String × Option String :=
  let inp := trimStr input
  let words := wordsOf inp
  match words.reverse with
  | [] => ("", none)
  | [w] => (w, none)
  | lastw :: sl :: restRev =>
    if is_number sl && is_unit lastw then
      (String.intercalate " " restRev.reverse, some (sl ++ " " ++ lastw))
    else if is_amount lastw then
      (String.intercalate " " (sl :: restRev).reverse, some lastw)
    else if is_number (words.headD "") && decide (2 ≤ words.length) then
      (String.intercalate " " (words.drop 1), some (words.headD ""))
    else (inp, none)

/-! ### `src/logging.rs`: log interpreter over an abstract database -/

/-- A log row as returned by the database layer (`db.rs::LogEntry`). -/
structure LogEntry where
  id : Option Int
  date : String
  food_name : String
  food_id : Int
  amount : String
  protein : F64
  fat : F64
  carbs : F64
  calories : F64
deriving DecidableEq, Repr

/-- The two database collaborator calls `parse_and_log` makes, as abstract
fallible functions (`db::get_food_by_name`, `db::log_food`). -/
structure Db where
  get_food_by_name : String → Except String (Option Food)
  log_food : Int → String → Macros → Except String LogEntry

/-- One invocation of the log sink: the arguments passed to
`db.log_food`. -/
structure LogCall where
  food_id : Int
  amount : String
  macros : Macros
deriving DecidableEq, Repr

/-- The failures `parse_and_log` can surface (its `anyhow` errors, plus
the `food.id.unwrap()` panic path, which is not a returned failure in the
source but is made explicit here). -/
inductive LogErr where
  | dbErr : String → LogErr
  | foodNotFound : String → LogErr
  | unscalable : String → String → LogErr
  | panicNoId : LogErr
deriving DecidableEq, Repr

/-- `logging.rs::parse_and_log`, instrumented with the list of log-sink
invocations actually performed (in order). -/
def parse_and_log (db : Db) (input : String) :
    Except LogErr LogEntry × List LogCall :=
  let (food_name, amount) := parse_input input
  match db.get_food_by_name food_name with
  | .error e => (.error (.dbErr e), [])
  | .ok none => (.error (.foodNotFound food_name), [])
  | .ok (some food) =>
    -- the source's if-let chain: explicit amount, else default_amount,
    -- else the serving string
    let actual_amount := amount.getD (food.default_amount.getD food.serving)
    match food.calculate actual_amount with
    | none => (.error (.unscalable actual_amount food.name), [])
    | some macros =>
      match food.id with
      | none => (.error .panicNoId, [])
      | some fid =>
        match db.log_food fid actual_amount macros with
        | .error e => (.error (.dbErr e), [⟨fid, actual_amount, macros⟩])
        | .ok entry => (.ok entry, [⟨fid, actual_amount, macros⟩])

/-! ### `src/db.rs`: food catalog rows, `edit_food`, `edit_log_entry` -/

/-- A row of the `foods` table, together with its aliases
(`aliases` table rows pointing at it). -/
structure FoodRow where
  id : Int
  name : String
  protein : F64
  fat : F64
  carbs : F64
  calories : F64
  serving : String
  default_amount : Option String
  aliases : List String
deriving DecidableEq, Repr

/-- A row of the `log` table. -/
structure LogRow where
  id : Int
  date : String
  food_id : Int
  amount : String
  protein : F64
  fat : F64
  carbs : F64
  calories : F64
deriving DecidableEq, Repr

/-- `db.rs::get_food_by_name` over an explicit table: case-insensitive
exact name match first, then case-insensitive alias match; first row
wins. -/
def db_get_food_by_name (table : List FoodRow) (name : String) :
    Option FoodRow :=
  let name_lower := lowerStr name
  match table.find? (fun r => lowerStr r.name = name_lower) with
  | some r => some r
  | none =>
    table.find? (fun r => r.aliases.any (fun a => lowerStr a = name_lower))

/-- One `col = ?` clause of the dynamically built UPDATE statement. -/
inductive UpdateField where
  | protein : F64 → UpdateField
  | fat : F64 → UpdateField
  | carbs : F64 → UpdateField
  | serving : String → UpdateField
  | amount : String → UpdateField
  | calories : F64 → UpdateField
deriving DecidableEq, Repr

/-- The calorie derivation used by both edit paths:
`(p * 4.0) + (f * 9.0) + (c * 4.0)`, left-associated as in the source. -/
def deriveCalories (p f c : F64) : F64 :=
  ((p.mul (F64.fin 4)).add (f.mul (F64.fin 9))).add (c.mul (F64.fin 4))

/-- The update list `db.rs::edit_food` builds: one clause per supplied
field, then — unconditionally — the re-derived calories. -/
def edit_food_updates (food : FoodRow)
    (protein fat carbs : Option F64) (serving : Option String) :
    List UpdateField :=
  let ups :=
    (match protein with | some p => [UpdateField.protein p] | none => [])
    ++ (match fat with | some f => [UpdateField.fat f] | none => [])
    ++ (match carbs with | some c => [UpdateField.carbs c] | none => [])
    ++ (match serving with | some s => [UpdateField.serving s] | none => [])
  let new_protein := protein.getD food.protein
  let new_fat := fat.getD food.fat
  let new_carbs := carbs.getD food.carbs
  ups ++ [UpdateField.calories (deriveCalories new_protein new_fat new_carbs)]

/-- Apply one UPDATE clause to a `foods` row (`amount` clauses do not
occur on this table and are ignored). -/
def applyFoodUpdate (r : FoodRow) : UpdateField → FoodRow
  | .protein q => { r with protein := q }
  | .fat q => { r with fat := q }
  | .carbs q => { r with carbs := q }
  | .serving s => { r with serving := s }
  | .amount _ => r
  | .calories q => { r with calories := q }

/-- `db.rs::edit_food`: look the food up, build the clause list, and if it
is non-empty run `UPDATE foods SET ... WHERE LOWER(name) = LOWER(?)`,
which rewrites every row whose lowercased name matches. -/
def edit_food (table : List FoodRow) (name : String)
    (protein fat carbs : Option F64) (serving : Option String) :
    Except String (List FoodRow) :=
  match db_get_food_by_name table name with
  | none => .error ("Food not found: " ++ name)
  | some food =>
    let updates := edit_food_updates food protein fat carbs serving
    if updates.isEmpty then .ok table
    else .ok (table.map fun r =>
      if lowerStr r.name = lowerStr name then updates.foldl applyFoodUpdate r
      else r)

/-- Apply one UPDATE clause to a `log` row (food-table clauses do not
occur on this table and are ignored). -/
def applyLogUpdate (r : LogRow) : UpdateField → LogRow
  | .protein q => { r with protein := q }
  | .fat q => { r with fat := q }
  | .carbs q => { r with carbs := q }
  | .amount a => { r with amount := a }
  | .calories q => { r with calories := q }
  | .serving _ => r

/-- The update list `db.rs::edit_log_entry` builds: clauses for the
supplied fields, and the re-derived calories only when at least one macro
was supplied. -/
def edit_log_updates (entry : LogRow) (amount : Option String)
    (protein fat carbs : Option F64) : List UpdateField :=
  let new_amount := amount.getD entry.amount
  let new_protein := protein.getD entry.protein
  let new_fat := fat.getD entry.fat
  let new_carbs := carbs.getD entry.carbs
  let new_calories := deriveCalories new_protein new_fat new_carbs
  (match amount with | some _ => [UpdateField.amount new_amount] | none => [])
  ++ (match protein with | some _ => [UpdateField.protein new_protein] | none => [])
  ++ (match fat with | some _ => [UpdateField.fat new_fat] | none => [])
  ++ (match carbs with | some _ => [UpdateField.carbs new_carbs] | none => [])
  ++ (if protein.isSome || fat.isSome || carbs.isSome then
        [UpdateField.calories new_calories]
      else [])

/-- The `LogEntry` value `db.rs::edit_log_entry` reads back before
editing (the `SELECT ... JOIN foods` row). -/
def storedLogEntry (r : LogRow) (food_name : String) : LogEntry :=
  { id := some r.id, date := r.date, food_name := food_name,
    food_id := r.food_id, amount := r.amount, protein := r.protein,
    fat := r.fat, carbs := r.carbs, calories := r.calories }

/-- `db.rs::edit_log_entry`: read the entry (failing when the id or its
food-table join partner is absent), build the clause list; when it is
empty return the entry as stored without touching the table, otherwise
run the UPDATE and return an entry rebuilt from the `new_*` values —
whose `calories` is always the re-derived value. -/
def edit_log_entry (logTable : List LogRow) (foods : List FoodRow)
    (id : Int) (amount : Option String) (protein fat carbs : Option F64) :
    Except String (LogEntry × List LogRow) :=
  match logTable.find? (fun r => r.id = id) with
  | none => .error "QueryReturnedNoRows"
  | some entry =>
    match foods.find? (fun fr => fr.id = entry.food_id) with
    | none => .error "QueryReturnedNoRows"
    | some foodRow =>
      let updates := edit_log_updates entry amount protein fat carbs
      if updates.isEmpty then .ok (storedLogEntry entry foodRow.name, logTable)
      else
        let newTable := logTable.map fun r =>
          if r.id = id then updates.foldl applyLogUpdate r else r
        let new_amount := amount.getD entry.amount
        let new_protein := protein.getD entry.protein
        let new_fat := fat.getD entry.fat
        let new_carbs := carbs.getD entry.carbs
        .ok ({ id := some id, date := entry.date, food_name := foodRow.name,
               food_id := entry.food_id, amount := new_amount,
               protein := new_protein, fat := new_fat, carbs := new_carbs,
               calories := deriveCalories new_protein new_fat new_carbs },
             newTable)

/-! ### Spec-side comparison definition and concrete fixtures -/

/-- The conversion factor of the spec's section 4.3 table, written from
the spec's words (for comparison against the code's `to_grams`):
1 for the gram words, 28.3495 for ounces, 453.592 for pounds, 1000 for
kilograms, 1 for milliliters, 240 for cups, 15 for tablespoons, 5 for
teaspoons, 100 for the discrete-item words, and 1 for anything
unrecognized; lookup is case-insensitive. -/
def specUnitFactor (u : String) : ℚ :=
  let t := lowerStr u
  if t = "g" || t = "gram" || t = "grams" then 1
  else if t = "oz" || t = "ounce" || t = "ounces" then 283495 / 10000
  else if t = "lb" || t = "lbs" || t = "pound" || t = "pounds" then
    453592 / 1000
  else if t = "kg" || t = "kilogram" || t = "kilograms" then 1000
  else if t = "ml" || t = "milliliter" || t = "milliliters" then 1
  else if t = "cup" || t = "cups" then 240
  else if t = "tbsp" || t = "tablespoon" || t = "tablespoons" then 15
  else if t = "tsp" || t = "teaspoon" || t = "teaspoons" then 5
  else if t = "bar" || t = "bars" || t = "piece" || t = "pieces"
      || t = "serving" || t = "servings" || t = "scoop" || t = "scoops" then
    100
  else 1

/-- The 310-digit numeral `1` followed by 309 zeros: its value `10^309`
exceeds the largest finite IEEE double. -/
def bigNumeral : String := String.mk ('1' :: List.replicate 309 '0')

/-- A catalog collaborator with no foods and a sink that reports nothing. -/
def dbNoFoods : Db :=
  { get_food_by_name := fun _ => .ok none
    log_food := fun _ _ _ => .error "unused" }

/-- The end-to-end example food of the spec's section 8. -/
def ribeye : Food :=
  { id := some 1, name := "ribeye", protein := F64.fin 23,
    fat := F64.fin 15, carbs := F64.fin 0, calories := F64.fin 247,
    serving := "100g", aliases := [], default_amount := none }

/-- A collaborator that knows only `ribeye` and echoes log calls back. -/
def dbRibeye : Db :=
  { get_food_by_name := fun n =>
      .ok (if n = "ribeye" then some ribeye else none)
    log_food := fun fid amount m =>
      .ok { id := some 7, date := "2026-10-12", food_name := "ribeye",
            food_id := fid, amount := amount, protein := m.protein,
            fat := m.fat, carbs := m.carbs, calories := m.calories } }

/-- A collaborator whose single food has an unparsable serving string, so
every scaling attempt fails. -/
def dbBadServing : Db :=
  { get_food_by_name := fun n =>
      .ok (if n = "mystery" then
        some { id := some 2, name := "mystery", protein := F64.fin 1,
               fat := F64.fin 1, carbs := F64.fin 1, calories := F64.fin 17,
               serving := "???", aliases := [], default_amount := none }
      else none)
    log_food := fun _ _ _ => .error "unused" }

/-- A one-row foods table for the edit witnesses. -/
def oatmealRow : FoodRow :=
  { id := 3, name := "oatmeal", protein := F64.fin 13, fat := F64.fin 7,
    carbs := F64.fin 68, calories := F64.fin 389, serving := "100g",
    default_amount := none, aliases := ["oats"] }

/-- A one-row log table for the edit witnesses; its calories were entered
explicitly and do not match the 4/9/4 derivation. -/
def oatmealLogRow : LogRow :=
  { id := 11, date := "2026-10-11", food_id := 3, amount := "40g",
    protein := F64.fin 5, fat := F64.fin 3, carbs := F64.fin 27,
    calories := F64.fin 160 }

/-! ### C1: the zero-serving "division-by-zero guard" -/

/-- C1, counterexample.  The claim says `parse_amount_multiplier` returns
`None` whenever the serving string normalizes to zero grams.  The code has
no such guard: with serving `"0g"` (which parses to `0` and normalizes to
zero grams) and amount `"100g"`, it performs the IEEE division and returns
`Some(+inf)`, not `None`. -/
theorem parse_amount_multiplier_zero_serving_not_none :
    parse_quantity "0g" = some (F64.fin 0, "g") ∧
    to_grams (F64.fin 0) "g" = some (F64.fin 0) ∧
    parse_amount_multiplier "100g" "0g" ≠ none := by
  refine ⟨by decide, by decide, ?_⟩
  decide

/-- C1, amended.  Scaling fails (`None`) only when one of the two strings
fails quantity parsing; when both parse and the serving normalizes to zero
grams it still succeeds, returning the IEEE quotient — `Some(+inf)`
whenever the amount normalizes to a nonzero non-NaN value. -/
theorem parse_amount_multiplier_zero_serving_is_inf
    (amount serving : String) (av sv ag : F64) (au su : String)
    (ha : parse_quantity amount = some (av, au))
    (hs : parse_quantity serving = some (sv, su))
    (hag : to_grams av au = some ag)
    (hsg : to_grams sv su = some (F64.fin 0))
    (hnz : ag ≠ F64.fin 0) (hnn : ag ≠ F64.nan) :
    parse_amount_multiplier amount serving = some F64.inf := by
  have hdiv : F64.div ag (F64.fin 0) = F64.inf := by
    cases ag with
    | fin q =>
      have hq : q ≠ 0 := fun h => hnz (by rw [h])
      simp [F64.div, hq]
    | inf => simp [F64.div]
    | nan => exact absurd rfl hnn
  simp [parse_amount_multiplier, ha, hs, hag, hsg, hdiv]

/-- C1, witness for the amended theorem: amount `"100g"`, serving `"0g"`. -/
theorem parse_amount_multiplier_zero_serving_is_inf_witness :
    parse_amount_multiplier "100g" "0g" = some F64.inf :=
  parse_amount_multiplier_zero_serving_is_inf "100g" "0g"
    (F64.fin 100) (F64.fin 0) (F64.fin 100) "g" "g"
    (by decide) (by decide) (by decide) (by decide)
    (by decide) (by decide)

/-! ### C2: tokenizer rule 4 -/

/-- C2, counterexample.  The claim says rule 4 fires for a numeric prefix
followed by any recognized unit word of the full vocabulary, e.g.
`"2scoops"`.  But `is_amount` only checks the six suffixes `g, oz, ml,
lb, kg, l`, so `"yogurt 2scoops"` — whose last token is the number `2`
glued to the recognized unit word `scoops` — is not split: the whole
input becomes the food name and no quantity phrase is produced. -/
theorem parse_input_combined_unit_word_not_split :
    parse_input "yogurt 2scoops" = ("yogurt 2scoops", none) ∧
    is_unit "scoops" = true ∧ is_number "2" = true := by
  refine ⟨?_, by decide, by decide⟩
  decide

/-- `is_amount` accepts any string whose lowercase form decomposes into a
parsable numeric prefix followed by one of the six recognized suffix
units. -/
theorem is_amount_of_suffix (s : String) (pre : List Char) (u : String)
    (hu : u ∈ amountSuffixes)
    (hdec : (lowerStr s).toList = pre ++ u.toList)
    (hpre : rustF64ParseOk pre = true) :
    is_amount s = true := by
  unfold is_amount
  rw [List.any_eq_true]
  refine ⟨u, hu, ?_⟩
  have hlen : (pre ++ u.toList).length - u.toList.length = pre.length := by
    simp
  have hss : stripSuffix ((lowerStr s).toList) u.toList = some pre := by
    rw [hdec]
    unfold stripSuffix
    rw [hlen]
    simp [List.take_left, List.drop_left, Nat.le_add_left]
  simp only [hss]
  exact hpre

/-- C2, amended.  Rule 4 recognizes only the six suffix units
`g, oz, ml, lb, kg, l` (case-insensitive): for an input of at least two
tokens on which rule 3 does not fire, if the last token is a parsable
numeric prefix glued to one of those six suffixes, the last token is the
quantity phrase and the remaining tokens joined with spaces are the food
name. -/
theorem parse_input_rule4_suffix_units
    (input : String) (front : List String) (sl lastw : String)
    (hw : wordsOf (trimStr input) = front ++ [sl, lastw])
    (h3 : ¬(is_number sl = true ∧ is_unit lastw = true))
    (pre : List Char) (u : String) (hu : u ∈ amountSuffixes)
    (hdec : (lowerStr lastw).toList = pre ++ u.toList)
    (hpre : rustF64ParseOk pre = true) :
    parse_input input = (String.intercalate " " (front ++ [sl]), some lastw) := by
  have ha : is_amount lastw = true := is_amount_of_suffix lastw pre u hu hdec hpre
  have hb : (is_number sl && is_unit lastw) = false := by
    cases hn : is_number sl <;> cases hv : is_unit lastw <;> simp_all
  have hrev : (front ++ [sl, lastw]).reverse = lastw :: sl :: front.reverse := by
    simp
  simp only [parse_input, hw, hrev]
  simp [hb, ha]

/-- C2, witness for the amended theorem: `"salmon 4oz"`. -/
theorem parse_input_rule4_suffix_units_witness :
    parse_input "salmon 4oz" = (String.intercalate " " (["salmon"] ++ []), some "4oz") :=
  parse_input_rule4_suffix_units "salmon 4oz" [] "salmon" "4oz"
    (by decide) (by decide) ['4'] "oz" (by decide) (by decide) (by decide)

/-! ### C3: scaling round-trip -/

/-- A `"100g"` amount against a `"100g"` serving gives multiplier
exactly 1. -/
theorem multiplier_100g_eq_one :
    parse_amount_multiplier "100g" "100g" = some (F64.fin 1) := by
  have hq1 : parse_quantity "100g" = some (F64.fin 100, "g") := by decide
  have hg1 : to_grams (F64.fin 100) "g" = some (F64.fin 100) := by decide
  have hne : (100 : ℚ) ≠ 0 := by norm_num
  have hd1 : F64.div (F64.fin 100) (F64.fin 100) = F64.fin 1 := by
    simp only [F64.div, if_neg hne]
    norm_num
  simp [parse_amount_multiplier, hq1, hg1, hd1]

/-- A `"200g"` amount against a `"100g"` serving gives multiplier
exactly 2. -/
theorem multiplier_200g_eq_two :
    parse_amount_multiplier "200g" "100g" = some (F64.fin 2) := by
  have hq1 : parse_quantity "100g" = some (F64.fin 100, "g") := by decide
  have hq2 : parse_quantity "200g" = some (F64.fin 200, "g") := by decide
  have hg1 : to_grams (F64.fin 100) "g" = some (F64.fin 100) := by decide
  have hg2 : to_grams (F64.fin 200) "g" = some (F64.fin 200) := by decide
  have hne : (100 : ℚ) ≠ 0 := by norm_num
  have hd2 : F64.div (F64.fin 200) (F64.fin 100) = F64.fin 2 := by
    simp only [F64.div, if_neg hne]
    norm_num
  simp [parse_amount_multiplier, hq1, hq2, hg1, hg2, hd2]

/-- C3.  For a food whose serving is `"100g"` with per-serving macros
`(p, f, c, cal)`, calculating for amount `"100g"` returns exactly
`(p, f, c, cal)` (multiplier exactly 1), and for `"200g"` exactly
`(2p, 2f, 2c, 2cal)`. -/
theorem scaling_round_trip (i : Option Int) (nm : String) (al : List String)
    (da : Option String) (p f c cal : ℚ) :
    (Food.mk i nm (F64.fin p) (F64.fin f) (F64.fin c) (F64.fin cal)
        "100g" al da).calculate "100g"
      = some ⟨F64.fin p, F64.fin f, F64.fin c, F64.fin cal⟩ ∧
    (Food.mk i nm (F64.fin p) (F64.fin f) (F64.fin c) (F64.fin cal)
        "100g" al da).calculate "200g"
      = some ⟨F64.fin (2 * p), F64.fin (2 * f), F64.fin (2 * c),
              F64.fin (2 * cal)⟩ := by
  constructor
  · simp [Food.calculate, multiplier_100g_eq_one, F64.mul]
  · simp [Food.calculate, multiplier_200g_eq_two, F64.mul, mul_comm]

/-! ### C6: the unit normalizer is total and follows the fixed table -/

set_option maxHeartbeats 2000000 in
/-- C6.  For every finite value and every unit string, `to_grams` returns
`Some` of the value times the factor given by the spec's section 4.3
table (case-insensitive), with factor 1 — never a failure — for units
outside the table. -/
theorem to_grams_matches_spec_table (v : ℚ) (u : String) :
    to_grams (F64.fin v) u = some (F64.fin (v * specUnitFactor u)) := by
  simp only [to_grams, specUnitFactor]
  split_ifs <;> simp [F64.mul]

/-! ### C8: values produced by the quantity parser -/

/-- C8, counterexample.  The claim says no input can make `parse_quantity`
return an infinite value.  The 310-digit numeral `10^309` exceeds the
largest finite IEEE double, so Rust's float parse — and the model —
returns positive infinity for it (with the default unit `"g"`). -/
theorem parse_quantity_huge_numeral_infinite :
    parse_quantity bigNumeral = some (F64.inf, "g") := by decide

/-- Values produced by the digit/dot parse are `inf` or a non-negative
finite rational. -/
theorem parseDecimalF64_nonneg (l : List Char) (v : F64)
    (h : parseDecimalF64 l = some v) :
    v = F64.inf ∨ ∃ q : ℚ, v = F64.fin q ∧ 0 ≤ q := by
  unfold parseDecimalF64 at h
  split at h
  · split at h
    · split at h
      · exact absurd h (by simp)
      · rw [Option.some_inj] at h
        subst h
        unfold mkF64val
        split
        · exact Or.inl rfl
        · exact Or.inr ⟨_, rfl, by positivity⟩
    · split at h
      · exact absurd h (by simp)
      · rw [Option.some_inj] at h
        subst h
        unfold mkF64val
        split
        · exact Or.inl rfl
        · refine Or.inr ⟨_, rfl, ?_⟩
          positivity
    · exact absurd h (by simp)
  · exact absurd h (by simp)

/-- C8, amended.  Whenever `parse_quantity` succeeds, the value is never
NaN and never negative; it is a non-negative finite rational except for
numerals at or beyond the IEEE-double overflow threshold, which yield
positive infinity. -/
theorem parse_quantity_value_nonneg_or_inf (s : String) (v : F64) (u : String)
    (h : parse_quantity s = some (v, u)) :
    v ≠ F64.nan ∧ ∀ q : ℚ, v = F64.fin q → 0 ≤ q := by
  have hv : v = F64.inf ∨ ∃ q : ℚ, v = F64.fin q ∧ 0 ≤ q := by
    simp only [parse_quantity] at h
    split at h
    · rw [Option.map_eq_some'] at h
      obtain ⟨w, hw, hwv⟩ := h
      obtain ⟨rfl, -⟩ := Prod.mk.injEq .. ▸ hwv
      exact parseDecimalF64_nonneg _ _ hw
    · rw [Option.map_eq_some'] at h
      obtain ⟨w, hw, hwv⟩ := h
      obtain ⟨rfl, -⟩ := Prod.mk.injEq .. ▸ hwv
      exact parseDecimalF64_nonneg _ _ hw
  rcases hv with rfl | ⟨q, rfl, hq⟩
  · exact ⟨by simp, fun q hq => by cases hq⟩
  · refine ⟨by simp, fun q' hq' => ?_⟩
    obtain rfl : q = q' := by injection hq'
    exact hq

/-- C8, witness for the amended theorem: input `"100g"`. -/
theorem parse_quantity_value_nonneg_or_inf_witness :
    F64.fin 100 ≠ F64.nan ∧ ∀ q : ℚ, F64.fin 100 = F64.fin q → 0 ≤ q :=
  parse_quantity_value_nonneg_or_inf "100g" (F64.fin 100) "g" (by decide)


/-! ### C4: the quantity-phrase fallback chain -/

/-- C4.  On every successful interpretation, the amount string passed to
scaling and recorded at the log sink is the tokenizer's explicit quantity
phrase when present, else the catalog entry's `default_amount` when
present, else the entry's own `serving` string. -/
theorem parse_and_log_amount_chain
    (db : Db) (input : String) (entry : LogEntry) (calls : List LogCall)
    (h : parse_and_log db input = (.ok entry, calls)) :
    ∃ (food : Food) (fid : Int) (macros : Macros),
      db.get_food_by_name (parse_input input).1 = .ok (some food) ∧
      food.id = some fid ∧
      food.calculate ((parse_input input).2.getD
        (food.default_amount.getD food.serving)) = some macros ∧
      calls = [⟨fid, (parse_input input).2.getD
        (food.default_amount.getD food.serving), macros⟩] ∧
      db.log_food fid ((parse_input input).2.getD
        (food.default_amount.getD food.serving)) macros = .ok entry := by
  rcases hpi : parse_input input with ⟨n, amt⟩
  simp only [parse_and_log, hpi] at h
  simp only [hpi]
  rcases hdb : db.get_food_by_name n with e | food?
  · simp [hdb] at h
  rcases food? with - | food
  · simp [hdb] at h
  simp only [hdb] at h
  rcases hcalc : food.calculate (amt.getD (food.default_amount.getD food.serving))
    with - | macros
  · simp [hcalc] at h
  simp only [hcalc] at h
  rcases hid : food.id with - | fid
  · simp [hid] at h
  simp only [hid] at h
  rcases hlog : db.log_food fid (amt.getD (food.default_amount.getD food.serving))
    macros with e | ent
  · simp [hlog] at h
  simp only [hlog] at h
  simp only [Prod.mk.injEq, Except.ok.injEq] at h
  obtain ⟨rfl, rfl⟩ := h
  exact ⟨food, fid, macros, rfl, hid, hcalc, rfl, hlog⟩

/-- C4, witness: the catalog knows `ribeye` (serving `"100g"`, no default
amount) and the input carries the explicit phrase `"100g"`. -/
theorem parse_and_log_amount_chain_witness :
    ∃ (food : Food) (fid : Int) (macros : Macros),
      dbRibeye.get_food_by_name (parse_input "ribeye 100g").1 = .ok (some food) ∧
      food.id = some fid ∧
      food.calculate ((parse_input "ribeye 100g").2.getD
        (food.default_amount.getD food.serving)) = some macros ∧
      [⟨1, "100g", ⟨F64.fin 23, F64.fin 15, F64.fin 0, F64.fin 247⟩⟩] =
        ([⟨fid, (parse_input "ribeye 100g").2.getD
          (food.default_amount.getD food.serving), macros⟩] : List LogCall) ∧
      dbRibeye.log_food fid ((parse_input "ribeye 100g").2.getD
        (food.default_amount.getD food.serving)) macros =
        .ok { id := some 7, date := "2026-10-12", food_name := "ribeye",
              food_id := 1, amount := "100g", protein := F64.fin 23,
              fat := F64.fin 15, carbs := F64.fin 0,
              calories := F64.fin 247 } := by
  have hpi : parse_input "ribeye 100g" = ("ribeye", some "100g") := by decide
  have hcalc : ribeye.calculate "100g" =
      some ⟨F64.fin 23, F64.fin 15, F64.fin 0, F64.fin 247⟩ := by
    simp [Food.calculate, ribeye, multiplier_100g_eq_one, F64.mul]
  have h : parse_and_log dbRibeye "ribeye 100g" =
      (.ok { id := some 7, date := "2026-10-12", food_name := "ribeye",
             food_id := 1, amount := "100g", protein := F64.fin 23,
             fat := F64.fin 15, carbs := F64.fin 0,
             calories := F64.fin 247 },
       [⟨1, "100g", ⟨F64.fin 23, F64.fin 15, F64.fin 0, F64.fin 247⟩⟩]) := by
    simp [parse_and_log, hpi, dbRibeye, hcalc,
      show ribeye.id = some 1 from rfl,
      show ribeye.default_amount = none from rfl]
  exact parse_and_log_amount_chain dbRibeye "ribeye 100g" _ _ h

/-! ### C5: no log row on a failed interpretation -/

/-- C5.  When the catalog lookup finds no entry, the interpreter returns
the food-not-found failure; when scaling returns no result, it returns the
unscalable-quantity failure; in both cases the log sink is never
invoked. -/
theorem parse_and_log_never_logs_on_failure (db : Db) (input : String) :
    (db.get_food_by_name (parse_input input).1 = .ok none →
      parse_and_log db input =
        (.error (.foodNotFound (parse_input input).1), [])) ∧
    (∀ food : Food,
      db.get_food_by_name (parse_input input).1 = .ok (some food) →
      food.calculate ((parse_input input).2.getD
        (food.default_amount.getD food.serving)) = none →
      parse_and_log db input =
        (.error (.unscalable ((parse_input input).2.getD
          (food.default_amount.getD food.serving)) food.name), [])) := by
  rcases hpi : parse_input input with ⟨n, amt⟩
  simp only [hpi]
  constructor
  · intro hdb
    simp [parse_and_log, hpi, hdb]
  · intro food hdb hcalc
    simp [parse_and_log, hpi, hdb, hcalc]

/-- C5, witness: unknown food name (part one) and a catalog entry whose
serving string cannot be parsed (part two). -/
theorem parse_and_log_never_logs_on_failure_witness :
    parse_and_log dbNoFoods "nosuchfood" =
      (.error (.foodNotFound "nosuchfood"), []) ∧
    parse_and_log dbBadServing "mystery 100g" =
      (.error (.unscalable "100g" "mystery"), []) := by
  constructor
  · exact (parse_and_log_never_logs_on_failure dbNoFoods "nosuchfood").1 rfl
  · exact (parse_and_log_never_logs_on_failure dbBadServing "mystery 100g").2
      { id := some 2, name := "mystery", protein := F64.fin 1,
        fat := F64.fin 1, carbs := F64.fin 1, calories := F64.fin 17,
        serving := "???", aliases := [], default_amount := none }
      rfl (by decide)

/-! ### C7: blank input -/

/-- C7, counterexample.  The claim says a blank input produces a distinct
`EmptyInput` failure, separate from `FoodNotFound`.  The code has no such
case: a blank input tokenizes to the empty food name, which then fails
lookup, and the returned failure is the food-not-found failure for the
empty name (no `EmptyInput` variant exists anywhere in the source's error
surface, which `LogErr` mirrors). -/
theorem parse_and_log_blank_is_food_not_found :
    parse_and_log dbNoFoods " " = (.error (.foodNotFound ""), []) := rfl

/-- C7, amended.  A blank (empty or all-whitespace) input tokenizes to the
empty food name and no quantity; when the catalog has no entry for the
empty name, the interpreter reports the food-not-found failure with the
empty name — there is no separate empty-input case. -/
theorem parse_and_log_blank_input
    (db : Db) (input : String)
    (hblank : trimStr input = "")
    (hdb : db.get_food_by_name "" = .ok none) :
    parse_and_log db input = (.error (.foodNotFound ""), []) := by
  have hwords : wordsOf "" = [] := by decide
  have hpi : parse_input input = ("", none) := by
    simp only [parse_input, hblank, hwords, List.reverse_nil]
  simp [parse_and_log, hpi, hdb]

/-- C7, witness for the amended theorem: the empty string. -/
theorem parse_and_log_blank_input_witness :
    parse_and_log dbNoFoods "" = (.error (.foodNotFound ""), []) :=
  parse_and_log_blank_input dbNoFoods "" (by decide) rfl

/-! ### C9: `edit_food` always re-derives stored calories -/

/-- C9.  Whenever `edit_food` finds the food, its clause list is never
empty (the calories clause is appended unconditionally, so the
empty-update early return is unreachable), and every matching stored row
is rewritten with `calories = new_protein*4 + new_fat*9 + new_carbs*4`
computed from the looked-up food's values with the supplied options —
even when no optional field at all is supplied.  An explicitly entered
stored calorie value therefore never survives the call. -/
theorem edit_food_always_writes_calories
    (table : List FoodRow) (name : String)
    (p? f? c? : Option F64) (s? : Option String) (food : FoodRow)
    (h : db_get_food_by_name table name = some food) :
    edit_food_updates food p? f? c? s? ≠ [] ∧
    edit_food table name p? f? c? s? = .ok (table.map fun r =>
      if lowerStr r.name = lowerStr name then
        { r with protein := p?.getD r.protein, fat := f?.getD r.fat,
                 carbs := c?.getD r.carbs, serving := s?.getD r.serving,
                 calories := deriveCalories (p?.getD food.protein)
                   (f?.getD food.fat) (c?.getD food.carbs) }
      else r) := by
  constructor
  · simp [edit_food_updates]
  · have hne : (edit_food_updates food p? f? c? s?).isEmpty = false := by
      simp [edit_food_updates]
    have hfun : (fun r : FoodRow =>
        if lowerStr r.name = lowerStr name then
          (edit_food_updates food p? f? c? s?).foldl applyFoodUpdate r
        else r)
        = (fun r : FoodRow =>
        if lowerStr r.name = lowerStr name then
          { r with protein := p?.getD r.protein, fat := f?.getD r.fat,
                   carbs := c?.getD r.carbs, serving := s?.getD r.serving,
                   calories := deriveCalories (p?.getD food.protein)
                     (f?.getD food.fat) (c?.getD food.carbs) }
        else r) := by
      funext r
      by_cases hm : lowerStr r.name = lowerStr name
      · rw [if_pos hm, if_pos hm]
        rcases p? <;> rcases f? <;> rcases c? <;> rcases s? <;>
          simp [edit_food_updates, applyFoodUpdate]
      · rw [if_neg hm, if_neg hm]
    simp only [edit_food, h, hne, Bool.false_eq_true, if_false, hfun]

/-- C9, witness: a serving-only edit (in fact, an edit supplying nothing
at all) on a one-row catalog whose stored calories (389) differ from the
4/9/4 derivation. -/
theorem edit_food_always_writes_calories_witness :
    edit_food_updates oatmealRow none none none none ≠ [] ∧
    edit_food [oatmealRow] "oatmeal" none none none none =
      .ok ([oatmealRow].map fun r =>
        if lowerStr r.name = lowerStr "oatmeal" then
          { r with protein := Option.getD none r.protein,
                   fat := Option.getD none r.fat,
                   carbs := Option.getD none r.carbs,
                   serving := Option.getD none r.serving,
                   calories := deriveCalories
                     (Option.getD none oatmealRow.protein)
                     (Option.getD none oatmealRow.fat)
                     (Option.getD none oatmealRow.carbs) }
        else r) :=
  edit_food_always_writes_calories [oatmealRow] "oatmeal"
    none none none none oatmealRow (by decide)

/-! ### C10: `edit_log_entry` recomputes calories iff a macro is supplied -/

/-- C10.  For a found log row: an amount-only edit rewrites just the
amount cell of the stored row, leaving stored protein, fat, carbs and
calories untouched; a call supplying no fields performs no update and
returns the entry as stored; and whenever at least one of protein, fat,
carbs is supplied, the stored row is rewritten with the supplied fields
and with calories re-derived as `protein*4 + fat*9 + carbs*4`. -/
theorem edit_log_entry_calories_iff_macro_edit
    (logT : List LogRow) (foods : List FoodRow) (id : Int)
    (r : LogRow) (frow : FoodRow)
    (hr : logT.find? (fun x => x.id = id) = some r)
    (hf : foods.find? (fun fr => fr.id = r.food_id) = some frow) :
    (∀ a : String, edit_log_entry logT foods id (some a) none none none =
      .ok ({ id := some id, date := r.date, food_name := frow.name,
             food_id := r.food_id, amount := a, protein := r.protein,
             fat := r.fat, carbs := r.carbs,
             calories := deriveCalories r.protein r.fat r.carbs },
           logT.map fun x => if x.id = id then { x with amount := a } else x)) ∧
    (edit_log_entry logT foods id none none none none =
      .ok (storedLogEntry r frow.name, logT)) ∧
    (∀ (a? : Option String) (p? f? c? : Option F64),
      (p?.isSome || f?.isSome || c?.isSome) = true →
      edit_log_entry logT foods id a? p? f? c? =
        .ok ({ id := some id, date := r.date, food_name := frow.name,
               food_id := r.food_id, amount := a?.getD r.amount,
               protein := p?.getD r.protein, fat := f?.getD r.fat,
               carbs := c?.getD r.carbs,
               calories := deriveCalories (p?.getD r.protein)
                 (f?.getD r.fat) (c?.getD r.carbs) },
             logT.map fun x => if x.id = id then
               { x with amount := a?.getD x.amount,
                        protein := p?.getD x.protein,
                        fat := f?.getD x.fat,
                        carbs := c?.getD x.carbs,
                        calories := deriveCalories (p?.getD r.protein)
                          (f?.getD r.fat) (c?.getD r.carbs) }
             else x)) := by
  refine ⟨?_, ?_, ?_⟩
  · intro a
    simp [edit_log_entry, hr, hf, edit_log_updates, applyLogUpdate]
  · simp [edit_log_entry, hr, hf, edit_log_updates]
  · intro a? p? f? c? hsome
    rcases a? with - | a <;> rcases p? with - | p <;> rcases f? with - | f <;>
      rcases c? with - | c <;>
      simp_all [edit_log_entry, hr, hf, edit_log_updates, applyLogUpdate]

/-- C10, witness: a one-row log table; part one at amount `"50g"`, part
two with no fields, part three supplying only protein. -/
theorem edit_log_entry_calories_iff_macro_edit_witness :
    (edit_log_entry [oatmealLogRow] [oatmealRow] 11 (some "50g")
        none none none =
      .ok ({ id := some 11, date := oatmealLogRow.date,
             food_name := oatmealRow.name, food_id := oatmealLogRow.food_id,
             amount := "50g", protein := oatmealLogRow.protein,
             fat := oatmealLogRow.fat, carbs := oatmealLogRow.carbs,
             calories := deriveCalories oatmealLogRow.protein
               oatmealLogRow.fat oatmealLogRow.carbs },
           [oatmealLogRow].map fun x =>
             if x.id = 11 then { x with amount := "50g" } else x)) ∧
    (edit_log_entry [oatmealLogRow] [oatmealRow] 11 none none none none =
      .ok (storedLogEntry oatmealLogRow oatmealRow.name, [oatmealLogRow])) ∧
    (edit_log_entry [oatmealLogRow] [oatmealRow] 11 none
        (some (F64.fin 6)) none none =
      .ok ({ id := some 11, date := oatmealLogRow.date,
             food_name := oatmealRow.name, food_id := oatmealLogRow.food_id,
             amount := Option.getD none oatmealLogRow.amount,
             protein := F64.fin 6, fat := oatmealLogRow.fat,
             carbs := oatmealLogRow.carbs,
             calories := deriveCalories (F64.fin 6) oatmealLogRow.fat
               oatmealLogRow.carbs },
           [oatmealLogRow].map fun x =>
             if x.id = 11 then
               { x with amount := Option.getD none x.amount,
                        protein := F64.fin 6,
                        fat := Option.getD none x.fat,
                        carbs := Option.getD none x.carbs,
                        calories := deriveCalories (F64.fin 6)
                          oatmealLogRow.fat oatmealLogRow.carbs }
             else x)) := by
  have hr : [oatmealLogRow].find? (fun x => x.id = (11 : Int)) =
      some oatmealLogRow := by decide
  have hf : [oatmealRow].find?
      (fun fr => fr.id = oatmealLogRow.food_id) = some oatmealRow := by
    decide
  refine ⟨?_, ?_, ?_⟩
  · exact (edit_log_entry_calories_iff_macro_edit [oatmealLogRow] [oatmealRow]
      11 oatmealLogRow oatmealRow hr hf).1 "50g"
  · exact (edit_log_entry_calories_iff_macro_edit [oatmealLogRow] [oatmealRow]
      11 oatmealLogRow oatmealRow hr hf).2.1
  · exact (edit_log_entry_calories_iff_macro_edit [oatmealLogRow] [oatmealRow]
      11 oatmealLogRow oatmealRow hr hf).2.2 none (some (F64.fin 6)) none none
      (by decide)
